import Mathlib

/-!
Verification model of the `nats_scan` DuckDB table function
(src/src/nats_scan.cpp).  The broker (NATS JetStream) is modelled as a
partial map from sequence numbers to messages; `js_DirectGetMsg` returning
`NATS_NOT_FOUND` corresponds to the map being `none` at that sequence.
Broker transport errors (which abort the query) are outside the model.
C++ `while` loops are embedded as fuel-indexed structural recursions; the
fuel passed at each entry point equals the interval width, which bounds the
iteration count whenever the stream's first sequence is at least 1 (a NATS
stream invariant: sequences start at 1), so the embedding computes exactly
the C++ loop on that domain.
-/

namespace NatsScan

/-- The constant UINT64_MAX, the sentinel the C++ code uses for "end_seq not specified"
and for "no sequence found" in timestamp resolution. -/
def UINT64_MAX : Nat := 18446744073709551615

/-- A JetStream message as far as the scan reads it: subject, nanosecond
timestamp (`natsMsg_GetTime`), and raw payload bytes. -/
structure NatsMsg where
  subject : String
  tsNs : Int
  payload : List Nat
deriving DecidableEq, Repr

/-- A stream: partial map from sequence number to message.  `none` models
`NATS_NOT_FOUND` (purged / absent sequence). -/
def StreamMap : Type := Nat → Option NatsMsg

/-- The loop body of `ResolveTimestampToSequence` (nats_scan.cpp:547-594),
fuel-indexed.  State: `left`, `right`, and the best candidate `res`
(`none` models the C++ `result_seq = UINT64_MAX`).  Each iteration probes
`mid = left + (right - left) / 2`; on NOT_FOUND it advances `left = mid + 1`
without narrowing `right`; on a hit with timestamp ≥ target it records `mid`
and narrows `right = mid - 1`; otherwise it advances `left = mid + 1`. -/
def resolveLoop (stream : Nat → Option Int) (target : Int) :
    Nat → Nat → Nat → Option Nat → Option Nat
  | 0, _, _, res => res
  | fuel + 1, left, right, res =>
    if left ≤ right then
      match stream (left + (right - left) / 2) with
      | none =>
        resolveLoop stream target fuel (left + (right - left) / 2 + 1) right res
      | some t =>
        if target ≤ t then
          resolveLoop stream target fuel left (left + (right - left) / 2 - 1)
            (some (left + (right - left) / 2))
        else
          resolveLoop stream target fuel (left + (right - left) / 2 + 1) right res
    else
      res

/-- Model of ResolveTimestampToSequence (nats_scan.cpp:547-594): binary search over
`[first, last]` for the first message at or after `target` nanoseconds.
Returns `none` where the C++ returns `UINT64_MAX`.  The fuel `last + 1 - first`
bounds the iteration count when `1 ≤ first` (each C++ iteration strictly
shrinks `right + 1 - left` because `mid ≥ left ≥ 1` rules out the uint64
wrap of `mid - 1`). -/
def ResolveTimestampToSequence (stream : Nat → Option Int) (target : Int)
    (first last : Nat) : Option Nat :=
  resolveLoop stream target (last + 1 - first) first last none

/-- Model of the substring test (find != npos): `needle` occurs as a contiguous
substring of `hay`, on the underlying character lists. -/
def strContains (hay needle : String) : Bool :=
  (List.range (hay.data.length + 1)).any
    (fun i => needle.data.isPrefixOf (hay.data.drop i))

/-- One output row as the scan populates it (nats_scan.cpp:750-860):
metadata columns, raw payload bytes (column 4 stores exactly these bytes,
as a blob in protobuf mode and as text otherwise), and the extraction
column values (`none` = SQL NULL). -/
structure RowOut (α : Type) where
  stream_name : String
  subject : String
  seq : Nat
  tsUs : Int
  payloadRaw : List Nat
  extracted : List (Option α)
deriving DecidableEq, Repr

/-- Per-row decoder dispatch (nats_scan.cpp:775-860): parse the payload once
(`yyjson_read` / `ParseFromArray`, abstracted as `decode`); on failure every
extraction column of the row is NULL; on success each requested field is
extracted from the parsed document. -/
def decodeExtract {α β : Type} (decode : List Nat → Option β)
    (extractOne : β → String → Option α) (fields : List String)
    (payload : List Nat) : List (Option α) :=
  match decode payload with
  | some doc => fields.map (fun f => extractOne doc f)
  | none => fields.map (fun _ => none)

/-- Builds the row emitted for the message at `seq` (nats_scan.cpp:750-860):
stream name copied from the bind data, subject, sequence, timestamp in
microseconds (`natsMsg_GetTime(msg) / 1000`, C++ int64 division truncates
toward zero, which is `Int.tdiv`), raw payload, extraction columns. -/
def mkRow {α β : Type} (sn : String) (decode : List Nat → Option β)
    (extractOne : β → String → Option α) (fields : List String)
    (seq : Nat) (msg : NatsMsg) : RowOut α :=
  { stream_name := sn
    subject := msg.subject
    seq := seq
    tsUs := Int.tdiv msg.tsNs 1000
    payloadRaw := msg.payload
    extracted := decodeExtract decode extractOne fields msg.payload }

/-- The per-batch fill loop of `NatsScanExecute` (nats_scan.cpp:702-874),
concatenated over all execution calls (the batch split never reorders or
drops rows: the cursor persists in the global state), fuel-indexed by the
remaining interval width.  A NOT_FOUND sequence advances the cursor without
emitting; a subject-filter miss likewise; otherwise a row is emitted. -/
def scanLoop {α β : Type} (stream : StreamMap) (sf sn : String)
    (decode : List Nat → Option β) (extractOne : β → String → Option α)
    (fields : List String) : Nat → Nat → Nat → List (RowOut α)
  | 0, _, _ => []
  | fuel + 1, cur, endSeq =>
    if cur ≤ endSeq then
      match stream cur with
      | none => scanLoop stream sf sn decode extractOne fields fuel (cur + 1) endSeq
      | some msg =>
        if sf != "" && !(strContains msg.subject sf) then
          scanLoop stream sf sn decode extractOne fields fuel (cur + 1) endSeq
        else
          mkRow sn decode extractOne fields cur msg ::
            scanLoop stream sf sn decode extractOne fields fuel (cur + 1) endSeq
    else
      []

/-- The full emitted-row sequence of a scan whose cursor starts at `cur` and
whose effective end is `endSeq`. -/
def natsScanRows {α β : Type} (stream : StreamMap) (sf sn : String)
    (decode : List Nat → Option β) (extractOne : β → String → Option α)
    (fields : List String) (cur endSeq : Nat) : List (RowOut α) :=
  scanLoop stream sf sn decode extractOne fields (endSeq + 1 - cur) cur endSeq

/-! ### Protobuf schema model (bind phase)

`FieldDescriptor::type()` values that are not `TYPE_MESSAGE` are the prim
kinds below (`TYPE_GROUP` stands in for every kind that falls through to the
`default` branch of the C++ switches).  A descriptor is a message type name
together with its named fields; `FindFieldByName` is association-list lookup. -/

/-- Non-message protobuf field kinds, as in `FieldDescriptor::Type`. -/
inductive ProtoPrimKind where
  | TYPE_STRING | TYPE_BYTES
  | TYPE_INT32 | TYPE_SINT32 | TYPE_SFIXED32
  | TYPE_INT64 | TYPE_SINT64 | TYPE_SFIXED64
  | TYPE_UINT32 | TYPE_FIXED32
  | TYPE_UINT64 | TYPE_FIXED64
  | TYPE_FLOAT | TYPE_DOUBLE | TYPE_BOOL | TYPE_ENUM
  | TYPE_GROUP
deriving DecidableEq, Repr

mutual
/-- A field's type: either a non-message kind or a nested message type. -/
inductive ProtoFieldType : Type where
  | prim (k : ProtoPrimKind)
  | message (d : ProtoDescriptor)

/-- A protobuf message descriptor: type name and named fields. -/
inductive ProtoDescriptor : Type where
  | mk (name : String) (fields : List (String × ProtoFieldType))
end

/-- Model of FindFieldByName on a descriptor. -/
def findFieldByName : ProtoDescriptor → String → Option ProtoFieldType
  | .mk _ fields, name => fields.lookup name

/-- The dot-splitting loop of nats_scan.cpp:96-105 (and 333-342): repeated
`find('.')` producing the substrings between dots, with a final piece after
the last dot (an empty input yields one empty piece, as in the C++). -/
def splitPathAux : List Char → List Char → List String
  | [], acc => [String.mk acc.reverse]
  | c :: cs, acc =>
    if c = '.' then String.mk acc.reverse :: splitPathAux cs []
    else splitPathAux cs (c :: acc)

/-- Splits a dotted field path into its components. -/
def splitFieldPath (path : String) : List String := splitPathAux path.data []

/-- The path walk shared by the bind-time validation (nats_scan.cpp:331-362)
and `GetFieldDescriptorForPath` (nats_scan.cpp:94-127): walk the dot-split
components left to right; every component must exist and every non-terminal
component must be message-typed. -/
def walkFieldPath : ProtoDescriptor → List String → Option ProtoFieldType
  | _, [] => none
  | d, [last] => findFieldByName d last
  | d, part :: rest =>
    match findFieldByName d part with
    | none => none
    | some (.prim _) => none
    | some (.message d2) => walkFieldPath d2 rest

/-- Model of GetFieldDescriptorForPath (nats_scan.cpp:94-127): resolve a dotted
field path such as `location.zone` to its leaf field descriptor. -/
def GetFieldDescriptorForPath (d : ProtoDescriptor) (path : String) :
    Option ProtoFieldType :=
  walkFieldPath d (splitFieldPath path)

/-- DuckDB logical type ids used by the scan's output schema. -/
inductive LogicalTypeId where
  | varchar | blob | integer | bigint | uinteger | ubigint
  | float | double | boolean | timestamp
deriving DecidableEq, Repr

/-- Model of ProtobufTypeToDuckDBType (nats_scan.cpp:130-166): the static map from
protobuf field kind to DuckDB logical type; message-typed leaves and unknown
kinds fall through to VARCHAR. -/
def ProtobufTypeToDuckDBType : ProtoFieldType → LogicalTypeId
  | .prim .TYPE_STRING => .varchar
  | .prim .TYPE_BYTES => .blob
  | .prim .TYPE_INT32 => .integer
  | .prim .TYPE_SINT32 => .integer
  | .prim .TYPE_SFIXED32 => .integer
  | .prim .TYPE_INT64 => .bigint
  | .prim .TYPE_SINT64 => .bigint
  | .prim .TYPE_SFIXED64 => .bigint
  | .prim .TYPE_UINT32 => .uinteger
  | .prim .TYPE_FIXED32 => .uinteger
  | .prim .TYPE_UINT64 => .ubigint
  | .prim .TYPE_FIXED64 => .ubigint
  | .prim .TYPE_FLOAT => .float
  | .prim .TYPE_DOUBLE => .double
  | .prim .TYPE_BOOL => .boolean
  | .prim .TYPE_ENUM => .varchar
  | .prim .TYPE_GROUP => .varchar
  | .message _ => .varchar

/-- The result of `Importer::Import(proto_filename)` followed by message
lookup: the imported file's message types by name
(`FileDescriptor::FindMessageTypeByName`).  The importer itself is an
external protobuf-library collaborator; bind receives its outcome, `none`
modelling an import failure. -/
def ProtoFileDesc : Type := List (String × ProtoDescriptor)

/-- The named and positional arguments of a `nats_scan` call, before
defaulting (`none` = parameter not supplied). -/
structure NatsScanArgs where
  inputs : List String
  subject : Option String := none
  url : Option String := none
  start_seq : Option Nat := none
  end_seq : Option Nat := none
  start_time_us : Option Int := none
  end_time_us : Option Int := none
  json_extract : Option (List String) := none
  proto_file : Option String := none
  proto_message : Option String := none
  proto_extract : Option (List String) := none

/-- Model of NatsScanBindData (nats_scan.cpp:57-91): the immutable bind record. -/
structure BindRecord where
  stream_name : String
  subject_filter : String
  nats_url : String
  start_seq : Nat
  end_seq : Nat
  start_time : Int
  end_time : Int
  json_fields : List String
  proto_file : String
  proto_message : String
  proto_fields : List String
  proto_descriptor : Option ProtoDescriptor

/-- Dots become underscores in protobuf column names (`std::replace` over
the column-name characters, nats_scan.cpp:396-397). -/
def underscoreName (p : String) : String :=
  String.mk (p.data.map (fun c => if c = '.' then '_' else c))

/-- The type of one protobuf extraction column (nats_scan.cpp:400-407):
the Type Mapper on the resolved leaf descriptor, VARCHAR if resolution
fails (the code's "should not happen" fallback). -/
def protoColType (d? : Option ProtoDescriptor) (p : String) : LogicalTypeId :=
  match d? with
  | some d =>
    match GetFieldDescriptorForPath d p with
    | some f => ProtobufTypeToDuckDBType f
    | none => .varchar
  | none => .varchar

/-- The output schema produced by `NatsScanBind` (nats_scan.cpp:365-408):
four fixed metadata columns, the payload column (BLOB exactly when protobuf
extraction is requested), one VARCHAR column per JSON field, one typed
column per protobuf path. -/
def buildSchema (json proto : List String) (d? : Option ProtoDescriptor) :
    List (String × LogicalTypeId) :=
  [("stream", LogicalTypeId.varchar), ("subject", LogicalTypeId.varchar),
   ("seq", LogicalTypeId.ubigint), ("ts_nats", LogicalTypeId.timestamp),
   ("payload", if proto.isEmpty then LogicalTypeId.varchar else LogicalTypeId.blob)]
  ++ json.map (fun f => (f, LogicalTypeId.varchar))
  ++ proto.map (fun p => (underscoreName p, protoColType d? p))

/-- A sequence window was supplied (nats_scan.cpp:268, left conjunct):
`start_seq > 0 || end_seq != UINT64_MAX` on the defaulted values. -/
def seqWindowGiven (args : NatsScanArgs) : Bool :=
  decide (0 < args.start_seq.getD 0) || decide (args.end_seq.getD UINT64_MAX ≠ UINT64_MAX)

/-- A time window was supplied (nats_scan.cpp:268, right conjunct):
`start_time > 0 || end_time > 0` on the nanosecond values (the supplied
microsecond timestamps times 1000, lines 239-245). -/
def timeWindowGiven (args : NatsScanArgs) : Bool :=
  decide ((0 : Int) < (args.start_time_us.getD 0) * 1000) ||
    decide ((0 : Int) < (args.end_time_us.getD 0) * 1000)

/-- Both a sequence window and a time window (nats_scan.cpp:268). -/
def seqTimeMix (args : NatsScanArgs) : Bool :=
  seqWindowGiven args && timeWindowGiven args

/-- Condition that json_extract and proto_extract are both non-empty (nats_scan.cpp:273). -/
def jsonProtoMix (args : NatsScanArgs) : Bool :=
  !(args.json_extract.getD []).isEmpty && !(args.proto_extract.getD []).isEmpty

/-- Condition that proto_extract is given without proto_file (nats_scan.cpp:279). -/
def protoFileMissingB (args : NatsScanArgs) : Bool :=
  !(args.proto_extract.getD []).isEmpty && (args.proto_file.getD "").isEmpty

/-- Condition that proto_extract is given without proto_message (nats_scan.cpp:282). -/
def protoMessageMissingB (args : NatsScanArgs) : Bool :=
  !(args.proto_extract.getD []).isEmpty && (args.proto_message.getD "").isEmpty

/-- Condition that proto_extract is given without proto_file or proto_message
(nats_scan.cpp:278-285). -/
def protoArgsMissing (args : NatsScanArgs) : Bool :=
  !(args.proto_extract.getD []).isEmpty &&
    ((args.proto_file.getD "").isEmpty || (args.proto_message.getD "").isEmpty)

/-- The bind record the constructor at nats_scan.cpp:410-419 produces from
the defaulted argument values. -/
def mkBindRecord (args : NatsScanArgs) (stream_name : String)
    (d? : Option ProtoDescriptor) : BindRecord :=
  { stream_name := stream_name
    subject_filter := args.subject.getD ""
    nats_url := args.url.getD "nats://localhost:4222"
    start_seq := args.start_seq.getD 0
    end_seq := args.end_seq.getD UINT64_MAX
    start_time := (args.start_time_us.getD 0) * 1000
    end_time := (args.end_time_us.getD 0) * 1000
    json_fields := args.json_extract.getD []
    proto_file := args.proto_file.getD ""
    proto_message := args.proto_message.getD ""
    proto_fields := args.proto_extract.getD []
    proto_descriptor := d? }

/-- Model of NatsScanBind (nats_scan.cpp:207-422).  The positional `stream_name`
is required (lines 210-214); defaults mirror lines 217-226; the validation
chain mirrors lines 267-285 (each condition spelled out in its own
definition above, on the same defaulted values the C++ locals hold); the
schema-compilation step (lines 287-363) runs only when `proto_extract` is
non-empty, consumes the import outcome `env`, looks up the message type and
validates every dotted path; on success the bind record and output schema
(lines 365-421) are produced. -/
def NatsScanBind (args : NatsScanArgs) (env : Option ProtoFileDesc) :
    Except String (BindRecord × List (String × LogicalTypeId)) :=
  match args.inputs.head? with
  | none => .error "nats_scan requires at least one argument: stream_name"
  | some stream_name =>
    if seqTimeMix args then
      .error "Cannot mix sequence-based (start_seq/end_seq) and time-based (start_time/end_time) parameters"
    else if jsonProtoMix args then
      .error "Cannot use both json_extract and proto_extract parameters"
    else if protoFileMissingB args then
      .error "proto_file parameter is required when using proto_extract"
    else if protoMessageMissingB args then
      .error "proto_message parameter is required when using proto_extract"
    else if (args.proto_extract.getD []).isEmpty then
      .ok (mkBindRecord args stream_name none,
           buildSchema (args.json_extract.getD []) (args.proto_extract.getD []) none)
    else
      match env with
      | none =>
        .error ("Failed to import protobuf schema file: " ++ args.proto_file.getD "")
      | some file =>
        match file.lookup (args.proto_message.getD "") with
        | none =>
          .error ("Message type '" ++ args.proto_message.getD "" ++ "' not found in "
            ++ args.proto_file.getD "")
        | some d =>
          if (args.proto_extract.getD []).all
              (fun p => (GetFieldDescriptorForPath d p).isSome) then
            .ok (mkBindRecord args stream_name (some d),
                 buildSchema (args.json_extract.getD []) (args.proto_extract.getD [])
                   (some d))
          else
            .error "Field path not found in message type"

/-- Returns true exactly when bind throws. -/
def bindErrs (args : NatsScanArgs) (env : Option ProtoFileDesc) : Bool :=
  match NatsScanBind args env with
  | .error _ => true
  | .ok _ => false

/-- Bind outcome as an option, for stating concrete evaluations. -/
def bindOk (args : NatsScanArgs) (env : Option ProtoFileDesc) :
    Option (BindRecord × List (String × LogicalTypeId)) :=
  match NatsScanBind args env with
  | .ok v => some v
  | .error _ => none

/-- Protobuf schema compilation fails: import failure, message type not
found, or some dotted path that does not resolve (nats_scan.cpp:287-363). -/
def protoSchemaFails (args : NatsScanArgs) (env : Option ProtoFileDesc) : Bool :=
  !(args.proto_extract.getD []).isEmpty &&
    (match env with
     | none => true
     | some file =>
       match file.lookup (args.proto_message.getD "") with
       | none => true
       | some d =>
         !(args.proto_extract.getD []).all
           (fun p => (GetFieldDescriptorForPath d p).isSome))

/-- Exactly which inputs make bind throw: missing positional argument,
mixed sequence/time windows, mixed json/proto extraction, proto extraction
without file or message, or — in proto mode — import, message-lookup or
field-path failure. -/
lemma NatsScanBind_error_iff (args : NatsScanArgs) (env : Option ProtoFileDesc) :
    bindErrs args env = true ↔
      (args.inputs = [] ∨ seqTimeMix args = true ∨ jsonProtoMix args = true ∨
       protoArgsMissing args = true ∨ protoSchemaFails args env = true) := by
  have hsplit : protoArgsMissing args = (protoFileMissingB args || protoMessageMissingB args) := by
    unfold protoArgsMissing protoFileMissingB protoMessageMissingB
    cases (args.proto_extract.getD []).isEmpty <;>
      cases (args.proto_file.getD "").isEmpty <;>
      cases (args.proto_message.getD "").isEmpty <;> rfl
  unfold bindErrs NatsScanBind
  cases hh : args.inputs.head? with
  | none =>
    have he : args.inputs = [] := List.head?_eq_none_iff.mp hh
    simp [he]
  | some s =>
    have hne : ¬ args.inputs = [] := by
      intro h; rw [h] at hh; exact Option.noConfusion hh
    by_cases h1 : seqTimeMix args = true
    · simp [h1, hne]
    · by_cases h2 : jsonProtoMix args = true
      · simp [h1, h2, hne]
      · by_cases h3 : protoFileMissingB args = true
        · have h3m : protoArgsMissing args = true := by
            rw [hsplit, h3]; rfl
          simp [h1, h2, h3, h3m, hne]
        · by_cases h4 : protoMessageMissingB args = true
          · have h4m : protoArgsMissing args = true := by
              rw [hsplit, h4]
              cases protoFileMissingB args <;> rfl
            simp [h1, h2, h3, h4, h4m, hne]
          · have hpm : protoArgsMissing args = false := by
              rw [hsplit, Bool.eq_false_iff.mpr h3, Bool.eq_false_iff.mpr h4]; rfl
            by_cases h5 : (args.proto_extract.getD []).isEmpty = true
            · have hsf : protoSchemaFails args env = false := by
                unfold protoSchemaFails
                rw [h5]; rfl
              simp [h1, h2, h3, h4, h5, hne, hpm, hsf]
            · have h5f : (args.proto_extract.getD []).isEmpty = false :=
                Bool.eq_false_iff.mpr h5
              cases env with
              | none =>
                have hsf : protoSchemaFails args none = true := by
                  unfold protoSchemaFails
                  rw [h5f]; rfl
                simp [h1, h2, h3, h4, h5f, hne, hpm, hsf]
              | some file =>
                cases hl : file.lookup (args.proto_message.getD "") with
                | none =>
                  have hsf : protoSchemaFails args (some file) = true := by
                    unfold protoSchemaFails
                    simp only [h5f, hl]
                    rfl
                  simp [h1, h2, h3, h4, h5f, hne, hpm, hsf, hl]
                | some d =>
                  by_cases h6 : (args.proto_extract.getD []).all
                      (fun p => (GetFieldDescriptorForPath d p).isSome) = true
                  · have hsf : protoSchemaFails args (some file) = false := by
                      unfold protoSchemaFails
                      simp only [h5f, hl, h6]
                      rfl
                    simp [h1, h2, h3, h4, h5f, hne, hpm, hsf, hl, h6]
                  · have h6f : (args.proto_extract.getD []).all
                        (fun p => (GetFieldDescriptorForPath d p).isSome) = false :=
                      Bool.eq_false_iff.mpr h6
                    have hsf : protoSchemaFails args (some file) = true := by
                      unfold protoSchemaFails
                      simp only [h5f, hl, h6f]
                      rfl
                    simp [h1, h2, h3, h4, h5f, hne, hpm, hsf, hl, h6f]


/-- The timestamps the resolver probes for a stream: `natsMsg_GetTime` of
the message at each present sequence. -/
def streamTs (stream : StreamMap) : Nat → Option Int :=
  fun q => (stream q).map (fun m => m.tsNs)

/-- Model of NatsScanInitGlobal plus NatsScanExecute up to and including timestamp
resolution and the scan loop (nats_scan.cpp:425-445, 597-875), batches
concatenated.  `current_seq` starts at `start_seq` or 1 (line 431); a
sentinel `end_seq` is clamped to the stream's last sequence (lines 654-657);
if `start_time` is set and resolves to "none" the scan is empty (lines
663-681); if `end_time` is set and resolves, it overwrites the effective
end sequence (lines 684-697). -/
def natsScanPipeline {α β : Type} (b : BindRecord) (stream : StreamMap)
    (firstSeq lastSeq : Nat) (decode : List Nat → Option β)
    (extractOne : β → String → Option α) (fields : List String) :
    List (RowOut α) :=
  let cur0 := if 0 < b.start_seq then b.start_seq else 1
  let end0 := if b.end_seq = UINT64_MAX then lastSeq else b.end_seq
  if 0 < b.start_time ∨ 0 < b.end_time then
    let curR : Option Nat :=
      if 0 < b.start_time then
        ResolveTimestampToSequence (streamTs stream) b.start_time firstSeq lastSeq
      else some cur0
    match curR with
    | none => []
    | some cur1 =>
      let end1 :=
        if 0 < b.end_time then
          match ResolveTimestampToSequence (streamTs stream) b.end_time firstSeq lastSeq with
          | some r => r
          | none => end0
        else end0
      natsScanRows stream b.subject_filter b.stream_name decode extractOne fields cur1 end1
  else
    natsScanRows stream b.subject_filter b.stream_name decode extractOne fields cur0 end0

/-! ### JSON decoder model (nats_scan.cpp:775-828)

The payload parser (`yyjson_read`) and serialiser (`yyjson_val_write`) are
external library collaborators; the parse outcome is the scan loop's
`decode` parameter.  JSON numbers are stored by yyjson as int64 or double
and read back through `yyjson_get_num` (a C `double`); the model restricts
numbers to the integral fragment, on which `std::to_string(double)` prints
the value followed by `.000000` and `yyjson_val_write` prints the bare
integer. -/

/-- A parsed JSON value (numbers restricted to the integral fragment). -/
inductive JsonVal : Type where
  | str (s : String)
  | num (n : Int)
  | boolean (b : Bool)
  | null
  | obj (fields : List (String × JsonVal))
  | arr (elems : List JsonVal)

mutual
/-- Minimal-form serialisation, as `yyjson_val_write` with no flags emits it
(string escaping not modelled: payload strings are taken escape-free). -/
def writeJsonVal : JsonVal → String
  | .str s => "\"" ++ s ++ "\""
  | .num n => toString n
  | .boolean b => if b then "true" else "false"
  | .null => "null"
  | .obj fs => "\x7b" ++ writeJsonMembers fs ++ "\x7d"
  | .arr es => "[" ++ writeJsonElems es ++ "]"

/-- Comma-joined `"key":value` members of an object. -/
def writeJsonMembers : List (String × JsonVal) → String
  | [] => ""
  | [kv] => "\"" ++ kv.1 ++ "\":" ++ writeJsonVal kv.2
  | kv :: rest => "\"" ++ kv.1 ++ "\":" ++ writeJsonVal kv.2 ++ "," ++ writeJsonMembers rest

/-- Comma-joined elements of an array. -/
def writeJsonElems : List JsonVal → String
  | [] => ""
  | [v] => writeJsonVal v
  | v :: rest => writeJsonVal v ++ "," ++ writeJsonElems rest
end

/-- Model of yyjson_obj_get: first member with the given key, NULL when the root is
not an object or the key is absent. -/
def yyjsonObjGet (root : JsonVal) (name : String) : Option JsonVal :=
  match root with
  | .obj fs => fs.lookup name
  | _ => none

/-- Model of the number stringification std::to_string on the integral fragment:
`%f` fixed notation with six decimals. -/
def jsonNumToString (n : Int) : String :=
  toString n ++ ".000000"

/-- The per-field JSON extraction (nats_scan.cpp:785-817): absent → NULL;
string → its text; number → `std::to_string` of its double value; bool →
`true`/`false`; JSON null → NULL; object or array → its serialised form
(NULL if serialisation fails, which the model's total serialiser never
does). -/
def jsonFieldToValue (root : JsonVal) (name : String) : Option String :=
  match yyjsonObjGet root name with
  | none => none
  | some (.str s) => some s
  | some (.num n) => some (jsonNumToString n)
  | some (.boolean b) => some (if b then "true" else "false")
  | some .null => none
  | some (.obj fs) => some (writeJsonVal (.obj fs))
  | some (.arr es) => some (writeJsonVal (.arr es))

/-! ### Scan-loop lemmas -/

/-- Every row the loop emits sits in the cursor window, its sequence is
present in the stream, and the row is exactly the one `mkRow` builds from
the fetched message. -/
lemma scanLoop_mem {α β : Type} (stream : StreamMap) (sf sn : String)
    (decode : List Nat → Option β) (extractOne : β → String → Option α)
    (fields : List String) (fuel : Nat) :
    ∀ (cur endSeq : Nat) (row : RowOut α),
      row ∈ scanLoop stream sf sn decode extractOne fields fuel cur endSeq →
      cur ≤ row.seq ∧ row.seq ≤ endSeq ∧
        ∃ msg, stream row.seq = some msg ∧
          row = mkRow sn decode extractOne fields row.seq msg := by
  induction fuel with
  | zero => intro cur endSeq row h; simp [scanLoop] at h
  | succ fuel ih =>
    intro cur endSeq row h
    rw [scanLoop] at h
    split at h
    · split at h
      · have h2 := ih (cur + 1) endSeq row h
        exact ⟨by omega, h2.2.1, h2.2.2⟩
      · split at h
        · have h2 := ih (cur + 1) endSeq row h
          exact ⟨by omega, h2.2.1, h2.2.2⟩
        · rcases List.mem_cons.mp h with hrow | htl
          · subst hrow
            refine ⟨le_refl _, by assumption, ?_⟩
            exact ⟨_, by assumption, rfl⟩
          · have h2 := ih (cur + 1) endSeq row htl
            exact ⟨by omega, h2.2.1, h2.2.2⟩
    · simp at h

/-- The loop's emitted sequences are strictly increasing. -/
lemma scanLoop_chain {α β : Type} (stream : StreamMap) (sf sn : String)
    (decode : List Nat → Option β) (extractOne : β → String → Option α)
    (fields : List String) (fuel : Nat) :
    ∀ (cur endSeq : Nat),
      List.Chain' (fun r s : RowOut α => r.seq < s.seq)
        (scanLoop stream sf sn decode extractOne fields fuel cur endSeq) := by
  induction fuel with
  | zero => intro cur endSeq; simp [scanLoop]
  | succ fuel ih =>
    intro cur endSeq
    rw [scanLoop]
    split
    · split
      · exact ih _ _
      · split
        · exact ih _ _
        · refine List.chain'_cons'.mpr ⟨?_, ih _ _⟩
          intro b hb
          have hmem : b ∈ scanLoop stream sf sn decode extractOne fields fuel (cur + 1) endSeq :=
            List.mem_of_mem_head? hb
          have h2 := scanLoop_mem stream sf sn decode extractOne fields fuel (cur + 1) endSeq b hmem
          have h1 := h2.1
          simp only [mkRow]
          omega
    · exact List.chain'_nil

/-- Every present sequence in the window that passes the subject filter
yields its row in the loop's output (given enough fuel, which the entry
point always supplies). -/
lemma scanLoop_emits {α β : Type} (stream : StreamMap) (sf sn : String)
    (decode : List Nat → Option β) (extractOne : β → String → Option α)
    (fields : List String) (fuel : Nat) :
    ∀ (cur endSeq q : Nat) (msg : NatsMsg),
      cur ≤ q → q ≤ endSeq → endSeq + 1 - cur ≤ fuel →
      stream q = some msg →
      (sf = "" ∨ strContains msg.subject sf = true) →
      mkRow sn decode extractOne fields q msg ∈
        scanLoop stream sf sn decode extractOne fields fuel cur endSeq := by
  induction fuel with
  | zero => intro cur endSeq q msg h1 h2 h3 _ _; omega
  | succ fuel ih =>
    intro cur endSeq q msg h1 h2 h3 hsq hfil
    rw [scanLoop]
    rw [if_pos (le_trans h1 h2)]
    by_cases hcq : q = cur
    · subst hcq
      split
      · next heq => rw [hsq] at heq; exact Option.noConfusion heq
      · next m2 heq =>
        rw [hsq] at heq
        have hm := Option.some.inj heq
        subst hm
        split
        · next hcond =>
          exfalso
          rcases hfil with hsf | hcc
          · subst hsf; simp at hcond
          · simp [hcc] at hcond
        · exact List.mem_cons_self _ _
    · have hq : cur + 1 ≤ q := by omega
      have hfuel : endSeq + 1 - (cur + 1) ≤ fuel := by omega
      have hrec := ih (cur + 1) endSeq q msg hq h2 hfuel hsq hfil
      split
      · exact hrec
      · split
        · exact hrec
        · exact List.mem_cons_of_mem _ hrec

/-! ### Concrete fixtures used by witnesses -/

/-- A message at sequence 1 of the witness stream. -/
def wMsg1 : NatsMsg := { subject := "a.x", tsNs := 1999, payload := [7] }

/-- A message at sequence 3 of the witness stream. -/
def wMsg3 : NatsMsg := { subject := "b.y", tsNs := 3500, payload := [9] }

/-- A witness stream with a gap at sequence 2. -/
def wStream : StreamMap := fun q =>
  if q = 1 then some wMsg1 else if q = 3 then some wMsg3 else none

/-- A decoder that fails on every payload. -/
def wDecode : List Nat → Option Unit := fun _ => none

/-- A field extractor over the trivial document type. -/
def wExtract : Unit → String → Option Unit := fun _ _ => none

/-- C3: a fetched message whose payload fails to decode (JSON or protobuf
parse failure, both instances of the abstract `decode` parameter) does not
abort the scan: its row is still emitted, with every extraction column of
that row NULL and the payload column holding the raw broker bytes; and
each row's extraction columns are computed from that row's own payload
alone, so no other row is affected. -/
theorem decode_failure_row_still_emitted {α β : Type} (stream : StreamMap)
    (sf sn : String) (decode : List Nat → Option β)
    (extractOne : β → String → Option α) (fields : List String)
    (cur endSeq q : Nat) (msg : NatsMsg)
    (hq1 : cur ≤ q) (hq2 : q ≤ endSeq)
    (hmsg : stream q = some msg)
    (hfil : sf = "" ∨ strContains msg.subject sf = true) :
    ∃ row, row ∈ natsScanRows stream sf sn decode extractOne fields cur endSeq ∧
      row.seq = q ∧ row.payloadRaw = msg.payload ∧
      (decode msg.payload = none → row.extracted = fields.map (fun _ => none)) ∧
      (∀ doc, decode msg.payload = some doc →
        row.extracted = fields.map (fun f => extractOne doc f)) := by
  refine ⟨mkRow sn decode extractOne fields q msg, ?_, rfl, rfl, ?_, ?_⟩
  · exact scanLoop_emits stream sf sn decode extractOne fields _ cur endSeq q msg
      hq1 hq2 (le_refl _) hmsg hfil
  · intro hfail
    simp only [mkRow, decodeExtract, hfail]
  · intro doc hdoc
    simp only [mkRow, decodeExtract, hdoc]

/-- C3 witness: a one-sequence window over `wStream` with the always-failing
decoder emits the row at sequence 3 with both extraction columns NULL and
the raw payload retained. -/
theorem decode_failure_row_still_emitted_witness :
    mkRow "S" wDecode wExtract ["f1", "f2"] 3 wMsg3 ∈
      natsScanRows wStream "" "S" wDecode wExtract ["f1", "f2"] 3 3 ∧
    (mkRow "S" wDecode wExtract ["f1", "f2"] 3 wMsg3).extracted = [none, none] ∧
    (mkRow "S" wDecode wExtract ["f1", "f2"] 3 wMsg3).payloadRaw = wMsg3.payload := by
  obtain ⟨row, hm, hseq, hpay, hnull, _⟩ :=
    decode_failure_row_still_emitted wStream "" "S" wDecode wExtract ["f1", "f2"]
      3 3 3 wMsg3 (le_refl 3) (le_refl 3) rfl (Or.inl rfl)
  have hrows : natsScanRows wStream "" "S" wDecode wExtract ["f1", "f2"] 3 3 =
      [mkRow "S" wDecode wExtract ["f1", "f2"] 3 wMsg3] := rfl
  rw [hrows] at hm
  have hrow := List.mem_singleton.mp hm
  subst hrow
  exact ⟨by rw [hrows]; exact List.mem_singleton.mpr rfl, hnull rfl, hpay⟩

/-- C4: across all execution calls of a query, the emitted `seq` values are
strictly increasing, every emitted sequence lies in the effective window
`[cur, endSeq]`, and every emitted sequence is present in the stream — a
NOT_FOUND sequence yields no row and no error, the cursor skipping it
silently. -/
theorem emitted_seqs_strictly_increasing_in_window {α β : Type}
    (stream : StreamMap) (sf sn : String) (decode : List Nat → Option β)
    (extractOne : β → String → Option α) (fields : List String)
    (cur endSeq : Nat) :
    List.Chain' (fun r s : RowOut α => r.seq < s.seq)
      (natsScanRows stream sf sn decode extractOne fields cur endSeq) ∧
    ∀ row ∈ natsScanRows stream sf sn decode extractOne fields cur endSeq,
      cur ≤ row.seq ∧ row.seq ≤ endSeq ∧ (stream row.seq).isSome = true := by
  constructor
  · exact scanLoop_chain stream sf sn decode extractOne fields _ cur endSeq
  · intro row hrow
    obtain ⟨h1, h2, msg, hmsg, _⟩ :=
      scanLoop_mem stream sf sn decode extractOne fields _ cur endSeq row hrow
    exact ⟨h1, h2, by rw [hmsg]; rfl⟩

/-- C4 witness: the window `[1, 3]` over `wStream` (gap at sequence 2)
emits the rows for sequences 1 and 3, in strictly increasing order, all
within the window and all present. -/
theorem emitted_seqs_strictly_increasing_in_window_witness :
    List.Chain' (fun r s : RowOut Unit => r.seq < s.seq)
      (natsScanRows wStream "" "S" wDecode wExtract [] 1 3) ∧
    mkRow "S" wDecode wExtract [] 1 wMsg1 ∈
      natsScanRows wStream "" "S" wDecode wExtract [] 1 3 ∧
    (1 ≤ (mkRow "S" wDecode wExtract [] 1 wMsg1).seq ∧
     (mkRow "S" wDecode wExtract [] 1 wMsg1).seq ≤ 3 ∧
     (wStream (mkRow "S" wDecode wExtract [] 1 wMsg1).seq).isSome = true) := by
  have h := emitted_seqs_strictly_increasing_in_window wStream "" "S"
    wDecode wExtract [] 1 3
  have hmem : mkRow "S" wDecode wExtract [] 1 wMsg1 ∈
      natsScanRows wStream "" "S" wDecode wExtract [] 1 3 := by decide
  exact ⟨h.1, hmem, h.2 _ hmem⟩

/-- C8: every emitted row's `ts_nats` value is the broker-reported
nanosecond timestamp divided by 1000 with C++ int64 truncating division
(`Int.tdiv`). -/
theorem ts_nats_is_ns_div_1000 {α β : Type} (stream : StreamMap)
    (sf sn : String) (decode : List Nat → Option β)
    (extractOne : β → String → Option α) (fields : List String)
    (cur endSeq : Nat) :
    ∀ row ∈ natsScanRows stream sf sn decode extractOne fields cur endSeq,
      ∃ msg, stream row.seq = some msg ∧ row.tsUs = Int.tdiv msg.tsNs 1000 := by
  intro row hrow
  obtain ⟨_, _, msg, hmsg, hrow_eq⟩ :=
    scanLoop_mem stream sf sn decode extractOne fields _ cur endSeq row hrow
  exact ⟨msg, hmsg, by rw [hrow_eq]; rfl⟩

/-! ### Timestamp-resolver correctness (C1) -/

/-- What C1 asserts of a resolver outcome: a returned sequence is the
smallest present one with timestamp at or after the target; "none" means no
present sequence in `[first, last]` has timestamp at or after the target. -/
def resolveSpec (stream : Nat → Option Int) (target : Int)
    (first last : Nat) : Option Nat → Prop
  | some r => first ≤ r ∧ r ≤ last ∧ (∃ t, stream r = some t ∧ target ≤ t) ∧
      ∀ q t, first ≤ q → q < r → stream q = some t → t < target
  | none => ∀ q t, first ≤ q → q ≤ last → stream q = some t → t < target

/-- When the search interval is exhausted, the loop invariants entail the
specification of the carried candidate. -/
lemma resolveExit (stream : Nat → Option Int) (target : Int)
    (first last left right : Nat) (res : Option Nat)
    (h1 : first ≤ left) (hgt : right < left)
    (hInvL : ∀ q t, first ≤ q → q < left → stream q = some t → t < target)
    (hnone : res = none → right = last)
    (hsome : ∀ r, res = some r → r = right + 1 ∧ left ≤ r ∧ r ≤ last ∧
      ∃ t, stream r = some t ∧ target ≤ t) :
    resolveSpec stream target first last res := by
  cases res with
  | none =>
    have hright := hnone rfl
    simp only [resolveSpec]
    intro q t hq hql hs
    exact hInvL q t hq (by omega) hs
  | some r =>
    obtain ⟨hr1, hr2, hr3, t, ht, htt⟩ := hsome r rfl
    simp only [resolveSpec]
    refine ⟨le_trans h1 hr2, hr3, ⟨t, ht, htt⟩, ?_⟩
    intro q t2 hq hql hs
    exact hInvL q t2 hq (by omega) hs

/-- The binary-search loop meets `resolveSpec` on gap-free monotone
streams: invariants are that everything left of `left` is before the
target, that `right` is still `last` while no candidate is recorded, and
that a recorded candidate sits just past `right` with timestamp at or
after the target. -/
lemma resolveLoop_nogap_correct (stream : Nat → Option Int) (target : Int)
    (first last : Nat) (hfirst : 1 ≤ first)
    (htotal : ∀ q, first ≤ q → q ≤ last → (stream q).isSome = true)
    (hmono : ∀ p q tp tq, first ≤ p → p ≤ q → q ≤ last →
      stream p = some tp → stream q = some tq → tp ≤ tq) :
    ∀ (fuel : Nat), ∀ (left right : Nat) (res : Option Nat),
      first ≤ left → right ≤ last → right + 1 - left ≤ fuel →
      (∀ q t, first ≤ q → q < left → stream q = some t → t < target) →
      (res = none → right = last) →
      (∀ r, res = some r → r = right + 1 ∧ left ≤ r ∧ r ≤ last ∧
        ∃ t, stream r = some t ∧ target ≤ t) →
      resolveSpec stream target first last
        (resolveLoop stream target fuel left right res) := by
  intro fuel
  induction fuel with
  | zero =>
    intro left right res h1 h2 h3 hInvL hnone hsome
    exact resolveExit stream target first last left right res h1 (by omega)
      hInvL hnone hsome
  | succ fuel ih =>
    intro left right res h1 h2 h3 hInvL hnone hsome
    rw [resolveLoop]
    split
    · next hle =>
      generalize hm : left + (right - left) / 2 = mid
      have hmid1 : left ≤ mid := by omega
      have hmid2 : mid ≤ right := by omega
      have hsm := htotal mid (le_trans h1 hmid1) (le_trans hmid2 h2)
      split
      · next heq =>
        rw [heq] at hsm
        exact Bool.noConfusion hsm
      · next t heq =>
        split
        · next htt =>
          apply ih left (mid - 1) (some mid) h1 (by omega) (by omega) hInvL
          · intro h; exact Option.noConfusion h
          · intro r hr
            have hrm := Option.some.inj hr
            subst hrm
            exact ⟨by omega, hmid1, by omega, t, heq, htt⟩
        · next htt =>
          have htlt : t < target := not_le.mp htt
          apply ih (mid + 1) right res (by omega) h2 (by omega)
          · intro q t2 hq hql hs
            by_cases hqleft : q < left
            · exact hInvL q t2 hq hqleft hs
            · have hq2 : q ≤ mid := by omega
              have := hmono q mid t2 t hq hq2 (le_trans hmid2 h2) hs heq
              omega
          · exact hnone
          · intro r hr
            obtain ⟨hr1, hr2, hr3, ht⟩ := hsome r hr
            exact ⟨hr1, by omega, hr3, ht⟩
    · next hle =>
      exact resolveExit stream target first last left right res h1 (by omega)
        hInvL hnone hsome

/-- C1 (amended): on a gap-free stream — every sequence in `[first, last]`
present — with monotone timestamps and `first ≥ 1`,
`ResolveTimestampToSequence` returns the smallest sequence whose timestamp
is at or after the target (so every earlier present sequence is strictly
before the target), or "none" exactly when no sequence in the interval has
timestamp at or after the target.  With interior gaps the returned sequence
is still present with timestamp at or after the target, but need not be the
smallest such (see the counterexample). -/
theorem resolve_smallest_at_or_after_when_gap_free
    (stream : Nat → Option Int) (target : Int) (first last : Nat)
    (hfirst : 1 ≤ first)
    (htotal : ∀ q, first ≤ q → q ≤ last → (stream q).isSome = true)
    (hmono : ∀ p q tp tq, first ≤ p → p ≤ q → q ≤ last →
      stream p = some tp → stream q = some tq → tp ≤ tq) :
    resolveSpec stream target first last
      (ResolveTimestampToSequence stream target first last) := by
  unfold ResolveTimestampToSequence
  apply resolveLoop_nogap_correct stream target first last hfirst htotal hmono
    (last + 1 - first) first last none (le_refl first) (le_refl last) (le_refl _)
  · intro q t hq hql _
    exact absurd (lt_of_le_of_lt hq hql) (lt_irrefl first)
  · intro; rfl
  · intro r hr
    exact Option.noConfusion hr

/-- A stream with a gap: sequence 2 is absent, sequences 1 and 3 carry
timestamps 10 and 20 (monotone on present sequences). -/
def c1gapStream : Nat → Option Int := fun q =>
  if q = 1 then some 10 else if q = 3 then some 20 else none

/-- C1 counterexample: on `c1gapStream` with target 5 over `[1, 3]`, the
search probes the absent mid sequence 2, skips forward without narrowing
the right bound, and returns sequence 3 — although sequence 1 is present
with timestamp 10 ≥ 5, so the returned sequence is not the smallest present
one at or after the target (and its present predecessor does not have
timestamp < target). -/
theorem resolve_gap_counterexample :
    ResolveTimestampToSequence c1gapStream 5 1 3 = some 3 ∧
    c1gapStream 1 = some 10 ∧ (5 : Int) ≤ 10 ∧ (1 : Nat) < 3 ∧
    (10 : Int) ≤ 20 := by
  refine ⟨rfl, rfl, by omega, by omega, by omega⟩

/-- C1 witness: the gap-free stream with timestamps equal to their
sequences over `[1, 4]` and target 3 resolves to sequence 3, which is
present with timestamp ≥ 3 while its predecessors are before 3. -/
theorem resolve_smallest_at_or_after_when_gap_free_witness :
    ResolveTimestampToSequence (fun q => some ((q : Int))) 3 1 4 = some 3 ∧
    (1 ≤ 3 ∧ 3 ≤ 4 ∧
      (∃ t, (fun q : Nat => some ((q : Int))) 3 = some t ∧ 3 ≤ t) ∧
      ∀ q t, 1 ≤ q → q < 3 → (fun q : Nat => some ((q : Int))) q = some t →
        t < 3) := by
  have h := resolve_smallest_at_or_after_when_gap_free
    (fun q => some ((q : Int))) 3 1 4 (le_refl 1)
    (fun q _ _ => rfl)
    (by
      intro p q tp tq _ hpq _ hp hq
      have hp2 := Option.some.inj hp
      have hq2 := Option.some.inj hq
      subst hp2; subst hq2
      exact_mod_cast hpq)
  have he : ResolveTimestampToSequence (fun q => some ((q : Int))) 3 1 4 = some 3 := rfl
  rw [he] at h
  exact ⟨he, h⟩

/-- The three-message stream of spec scenario 4: timestamps 1000, 2000 and
3000 ns at sequences 1, 2 and 3. -/
def c2stream : StreamMap := fun q =>
  if q = 1 then some { subject := "s", tsNs := 1000, payload := [] }
  else if q = 2 then some { subject := "s", tsNs := 2000, payload := [] }
  else if q = 3 then some { subject := "s", tsNs := 3000, payload := [] }
  else none

/-- The bind record of spec scenario 4: a time window of
`start_time` = 1500 ns and `end_time` = 2500 ns, no other filters. -/
def c2bind : BindRecord :=
  { stream_name := "T", subject_filter := "", nats_url := "nats://localhost:4222",
    start_seq := 0, end_seq := UINT64_MAX, start_time := 1500, end_time := 2500,
    json_fields := [], proto_file := "", proto_message := "", proto_fields := [],
    proto_descriptor := none }

/-- C2: scanning `c2stream` with the inclusive time window [1500 ns,
2500 ns] emits the rows for sequences 2 AND 3 — not exactly one row with
seq = 2 as the claim states.  `ResolveTimestampToSequence` resolves the end
bound to the first sequence with timestamp ≥ 2500 ns (sequence 3, timestamp
3000 ns, outside the window) and the scan loop then emits it. -/
theorem scan_time_window_emits_row_beyond_end :
    (natsScanPipeline c2bind c2stream 1 3 wDecode wExtract []).map
      (fun r => r.seq) = [2, 3] ∧
    streamTs c2stream 3 = some 3000 ∧ ¬ ((3000 : Int) ≤ 2500) := by
  exact ⟨rfl, rfl, by omega⟩

/-- C8 witness: the row for sequence 1 of `wStream` (timestamp 1999 ns)
carries `ts_nats` = 1999 tdiv 1000 = 1 μs. -/
theorem ts_nats_is_ns_div_1000_witness :
    mkRow "S" wDecode wExtract [] 1 wMsg1 ∈
      natsScanRows wStream "" "S" wDecode wExtract [] 1 1 ∧
    (mkRow "S" wDecode wExtract [] 1 wMsg1).tsUs = Int.tdiv 1999 1000 := by
  have hmem : mkRow "S" wDecode wExtract [] 1 wMsg1 ∈
      natsScanRows wStream "" "S" wDecode wExtract [] 1 1 := by decide
  obtain ⟨msg, hmsg, hts⟩ := ts_nats_is_ns_div_1000 wStream "" "S" wDecode wExtract []
    1 1 (mkRow "S" wDecode wExtract [] 1 wMsg1) hmem
  have hstream : wStream (mkRow "S" wDecode wExtract ([] : List String) 1 wMsg1).seq =
      some wMsg1 := rfl
  rw [hstream] at hmsg
  have hm := Option.some.inj hmsg
  subst hm
  exact ⟨hmem, hts⟩

/-! ### Bind-phase claims -/

/-- C6 (amended): bind aborts with a user-facing error exactly when the
stream_name argument is missing; or a sequence window (start_seq > 0 or
end_seq specified) and a time window (positive start_time or end_time) are
both supplied; or json_extract and proto_extract are both non-empty; or
proto_extract is non-empty while proto_file or proto_message is missing; or
— in proto mode — the schema import fails, the message type is not found,
or a field path does not resolve. -/
theorem bind_aborts_iff (args : NatsScanArgs) (env : Option ProtoFileDesc) :
    bindErrs args env = true ↔
      (args.inputs = [] ∨ seqTimeMix args = true ∨ jsonProtoMix args = true ∨
       protoArgsMissing args = true ∨ protoSchemaFails args env = true) :=
  NatsScanBind_error_iff args env

/-- C6 counterexample: a call without any positional argument aborts bind,
yet none of the three conditions the claim lists holds — so those three
conditions are not exhaustive. -/
theorem bind_aborts_outside_claimed_conditions :
    bindErrs { inputs := [] } none = true ∧
    seqTimeMix { inputs := [] } = false ∧
    jsonProtoMix { inputs := [] } = false ∧
    protoArgsMissing { inputs := [] } = false :=
  ⟨rfl, rfl, rfl, rfl⟩

/-- C6 witness: supplying both `start_seq` and `start_time` aborts bind. -/
theorem bind_aborts_iff_witness :
    bindErrs { inputs := ["s"], start_seq := some 5, start_time_us := some 1 } none = true :=
  (bind_aborts_iff { inputs := ["s"], start_seq := some 5, start_time_us := some 1 } none).mpr
    (Or.inr (Or.inl rfl))

/-- C9 (amended): bind aborts when no stream_name argument is supplied, and
the BindRecord of every successful bind carries the first positional
argument verbatim as `stream_name` — which may be the empty string: bind
never rejects an empty stream_name. -/
theorem bind_requires_stream_name_argument (args : NatsScanArgs)
    (env : Option ProtoFileDesc) :
    (args.inputs = [] → bindErrs args env = true) ∧
    (∀ r s, NatsScanBind args env = .ok (r, s) →
      args.inputs.head? = some r.stream_name) := by
  constructor
  · intro h
    unfold bindErrs NatsScanBind
    rw [h]
    rfl
  · intro r s hok
    unfold NatsScanBind at hok
    cases hin : args.inputs with
    | nil => rw [hin] at hok; exact Except.noConfusion hok
    | cons sn rest =>
      rw [hin] at hok
      simp only [List.head?_cons] at hok ⊢
      split at hok
      · exact Except.noConfusion hok
      split at hok
      · exact Except.noConfusion hok
      split at hok
      · exact Except.noConfusion hok
      split at hok
      · exact Except.noConfusion hok
      split at hok
      · injection hok with h2
        injection h2 with hr hs
        rw [← hr]
        rfl
      · split at hok
        · exact Except.noConfusion hok
        · split at hok
          · exact Except.noConfusion hok
          · split at hok
            · injection hok with h2
              injection h2 with hr hs
              rw [← hr]
              rfl
            · exact Except.noConfusion hok

/-- C9 counterexample: `nats_scan('')` binds successfully and the resulting
BindRecord's stream_name is the empty string, violating the claimed
non-emptiness. -/
theorem bind_accepts_empty_stream_name :
    (bindOk { inputs := [""] } none).map (fun rs => rs.1.stream_name) = some "" :=
  rfl

/-- C9 witness: with no positional argument, bind aborts. -/
theorem bind_requires_stream_name_argument_witness :
    bindErrs { inputs := ([] : List String) } none = true :=
  (bind_requires_stream_name_argument { inputs := [] } none).1 rfl

/-- C10: when proto_extract is empty or absent, the import outcome is never
consulted (no schema parsing happens), bind succeeds exactly when the
stream_name is present and no sequence/time mix is supplied, no descriptor
is stored, and the schema is the VARCHAR-payload one with no protobuf
columns — all protobuf behaviour is gated solely on a non-empty
proto_extract, even if proto_file or proto_message were supplied. -/
theorem proto_params_inert_without_proto_extract (args : NatsScanArgs)
    (env env2 : Option ProtoFileDesc) (hp : args.proto_extract.getD [] = []) :
    NatsScanBind args env = NatsScanBind args env2 ∧
    (bindErrs args env = true ↔ (args.inputs = [] ∨ seqTimeMix args = true)) ∧
    (∀ r s, NatsScanBind args env = .ok (r, s) →
      r.proto_descriptor = none ∧
      s = buildSchema (args.json_extract.getD []) [] none) := by
  have hpe : (args.proto_extract.getD []).isEmpty = true := by rw [hp]; rfl
  have hj : jsonProtoMix args = false := by simp [jsonProtoMix, hp]
  have hm : protoArgsMissing args = false := by simp [protoArgsMissing, hp]
  have hs : protoSchemaFails args env = false := by simp [protoSchemaFails, hp]
  refine ⟨?_, ?_, ?_⟩
  · unfold NatsScanBind
    cases args.inputs.head? with
    | none => rfl
    | some sn => simp [hpe]
  · rw [NatsScanBind_error_iff]
    simp [hj, hm, hs]
  · intro r s hok
    unfold NatsScanBind at hok
    cases hin : args.inputs with
    | nil => rw [hin] at hok; exact Except.noConfusion hok
    | cons sn rest =>
      rw [hin] at hok
      simp only [List.head?_cons] at hok
      split at hok
      · exact Except.noConfusion hok
      split at hok
      · exact Except.noConfusion hok
      split at hok
      · exact Except.noConfusion hok
      split at hok
      · exact Except.noConfusion hok
      injection hok with h2
      injection h2 with hr hs2
      constructor
      · rw [← hr]; rfl
      · rw [← hs2, hp]

/-- C10 witness: supplying `proto_file` and `proto_message` without
`proto_extract` binds successfully with the VARCHAR-payload schema,
independently of the import outcome. -/
theorem proto_params_inert_without_proto_extract_witness :
    NatsScanBind
        { inputs := ["s"], proto_file := some "x.proto", proto_message := some "M" } none =
      NatsScanBind
        { inputs := ["s"], proto_file := some "x.proto", proto_message := some "M" }
        (some []) ∧
    (bindErrs
        { inputs := ["s"], proto_file := some "x.proto", proto_message := some "M" } none =
      true ↔
      (({ inputs := ["s"], proto_file := some "x.proto",
          proto_message := some "M" } : NatsScanArgs).inputs = [] ∨
        seqTimeMix
          { inputs := ["s"], proto_file := some "x.proto", proto_message := some "M" } =
          true)) :=
  have h := proto_params_inert_without_proto_extract
    { inputs := ["s"], proto_file := some "x.proto", proto_message := some "M" }
    none (some []) rfl
  ⟨h.1, h.2.1⟩

/-- C5: every successful bind's output schema is, in order: stream, subject,
seq, ts_nats (VARCHAR, VARCHAR, UBIGINT, TIMESTAMP μs), payload (BLOB
exactly when protobuf extraction is requested, else VARCHAR), then one
VARCHAR column per json_extract field in requested order, then one column
per proto_extract path in requested order, named by the dotted path with
dots replaced by underscores and typed by the Type Mapper applied to the
resolved leaf field descriptor. -/
theorem bind_output_schema (args : NatsScanArgs) (env : Option ProtoFileDesc)
    (r : BindRecord) (s : List (String × LogicalTypeId))
    (hok : NatsScanBind args env = .ok (r, s)) :
    s = [("stream", LogicalTypeId.varchar), ("subject", LogicalTypeId.varchar),
         ("seq", LogicalTypeId.ubigint), ("ts_nats", LogicalTypeId.timestamp),
         ("payload", if (args.proto_extract.getD []).isEmpty then LogicalTypeId.varchar
                     else LogicalTypeId.blob)]
      ++ (args.json_extract.getD []).map (fun f => (f, LogicalTypeId.varchar))
      ++ (args.proto_extract.getD []).map
          (fun p => (underscoreName p, protoColType r.proto_descriptor p)) ∧
    ((args.proto_extract.getD []).isEmpty = false →
      ∃ d, r.proto_descriptor = some d ∧
        ∀ p ∈ args.proto_extract.getD [], ∃ leaf,
          GetFieldDescriptorForPath d p = some leaf ∧
          protoColType (some d) p = ProtobufTypeToDuckDBType leaf) := by
  unfold NatsScanBind at hok
  cases hin : args.inputs with
  | nil => rw [hin] at hok; exact Except.noConfusion hok
  | cons sn rest =>
    rw [hin] at hok
    simp only [List.head?_cons] at hok
    split at hok
    · exact Except.noConfusion hok
    split at hok
    · exact Except.noConfusion hok
    split at hok
    · exact Except.noConfusion hok
    split at hok
    · exact Except.noConfusion hok
    split at hok
    · next hcond =>
      injection hok with h2
      injection h2 with hr hs2
      constructor
      · rw [← hs2, ← hr]
        rfl
      · intro hfalse
        rw [hcond] at hfalse
        exact Bool.noConfusion hfalse
    · next hcond =>
      split at hok
      · exact Except.noConfusion hok
      · next file =>
        split at hok
        · exact Except.noConfusion hok
        · next d hl =>
          split at hok
          · next hall =>
            injection hok with h2
            injection h2 with hr hs2
            constructor
            · rw [← hs2, ← hr]
              rfl
            · intro _
              refine ⟨d, by rw [← hr]; rfl, ?_⟩
              intro p hpmem
              have hps := List.all_eq_true.mp hall p hpmem
              obtain ⟨leaf, hleaf⟩ := Option.isSome_iff_exists.mp hps
              refine ⟨leaf, hleaf, ?_⟩
              simp [protoColType, hleaf]
          · exact Except.noConfusion hok

/-- The `Loc` message of spec scenario 6. -/
def wLocDesc : ProtoDescriptor := .mk "Loc" [("zone", .prim .TYPE_STRING)]

/-- The `Telemetry` message of spec scenario 6. -/
def wTelemetryDesc : ProtoDescriptor :=
  .mk "Telemetry" [("id", .prim .TYPE_INT64), ("location", .message wLocDesc)]

/-- The imported schema file holding `Telemetry`. -/
def wProtoEnv : ProtoFileDesc := [("Telemetry", wTelemetryDesc)]

/-- A protobuf-mode call extracting `id` and `location.zone`. -/
def c5args : NatsScanArgs :=
  { inputs := ["s"], proto_file := some "t.proto", proto_message := some "Telemetry",
    proto_extract := some ["id", "location.zone"] }

/-- C5 witness: binding the `Telemetry` extraction yields the BLOB-payload
schema with `id` typed BIGINT and `location_zone` typed VARCHAR. -/
theorem bind_output_schema_witness :
    (bindOk c5args (some wProtoEnv)).map Prod.snd = some
      [("stream", LogicalTypeId.varchar), ("subject", LogicalTypeId.varchar),
       ("seq", LogicalTypeId.ubigint), ("ts_nats", LogicalTypeId.timestamp),
       ("payload", LogicalTypeId.blob), ("id", LogicalTypeId.bigint),
       ("location_zone", LogicalTypeId.varchar)] := by
  have h := bind_output_schema c5args (some wProtoEnv)
    (mkBindRecord c5args "s" (some wTelemetryDesc))
    (buildSchema [] ["id", "location.zone"] (some wTelemetryDesc)) rfl
  have h2 : (bindOk c5args (some wProtoEnv)).map Prod.snd =
      some (buildSchema [] ["id", "location.zone"] (some wTelemetryDesc)) := rfl
  rw [h2, h.1]
  rfl

/-! ### JSON decoder claim (C7) -/

/-- C7: in json mode each emitted row's extraction columns are computed by
`jsonFieldToValue` from that row's parsed document, and for every root and
requested top-level field name the mapping is: absent → NULL; string → its
literal text; number → its fixed six-decimal stringification; bool →
"true"/"false"; JSON null → NULL; object or array → its serialised JSON
form. -/
theorem json_extraction_mapping (parse : List Nat → Option JsonVal)
    (stream : StreamMap) (sf sn : String) (fields : List String)
    (cur endSeq : Nat) :
    (∀ row ∈ natsScanRows stream sf sn parse jsonFieldToValue fields cur endSeq,
      ∀ root, parse row.payloadRaw = some root →
        row.extracted = fields.map (fun f => jsonFieldToValue root f)) ∧
    (∀ (root : JsonVal) (name : String),
      (yyjsonObjGet root name = none → jsonFieldToValue root name = none) ∧
      (∀ s2, yyjsonObjGet root name = some (.str s2) →
        jsonFieldToValue root name = some s2) ∧
      (∀ n, yyjsonObjGet root name = some (.num n) →
        jsonFieldToValue root name = some (toString n ++ ".000000")) ∧
      (∀ b, yyjsonObjGet root name = some (.boolean b) →
        jsonFieldToValue root name = some (if b then "true" else "false")) ∧
      (yyjsonObjGet root name = some .null → jsonFieldToValue root name = none) ∧
      (∀ fs, yyjsonObjGet root name = some (.obj fs) →
        jsonFieldToValue root name = some (writeJsonVal (.obj fs))) ∧
      (∀ es, yyjsonObjGet root name = some (.arr es) →
        jsonFieldToValue root name = some (writeJsonVal (.arr es)))) := by
  constructor
  · intro row hrow root hparse
    obtain ⟨_, _, msg, hmsg, hrow_eq⟩ :=
      scanLoop_mem stream sf sn parse jsonFieldToValue fields _ cur endSeq row hrow
    have hp2 : parse msg.payload = some root := by
      rw [hrow_eq] at hparse; exact hparse
    rw [hrow_eq]
    simp only [mkRow, decodeExtract, hp2]
  · intro root name
    refine ⟨?_, ?_, ?_, ?_, ?_, ?_, ?_⟩
    · intro h; simp [jsonFieldToValue, h]
    · intro s2 h; simp [jsonFieldToValue, h]
    · intro n h; simp [jsonFieldToValue, jsonNumToString, h]
    · intro b h; simp [jsonFieldToValue, h]
    · intro h; simp [jsonFieldToValue, h]
    · intro fs h; simp [jsonFieldToValue, h]
    · intro es h; simp [jsonFieldToValue, h]

/-- The payload object of spec scenario 5. -/
def c7root : JsonVal :=
  .obj [("a", .str "hi"), ("b", .num 42), ("c", .boolean true), ("d", .null),
        ("e", .obj [("x", .num 1)])]

/-- C7 witness: on scenario 5's object, field `b` (the number 42) extracts
as "42.000000", `e` as its serialised JSON form, and the absent `f` as
NULL. -/
theorem json_extraction_mapping_witness :
    yyjsonObjGet c7root "b" = some (.num 42) ∧
    jsonFieldToValue c7root "b" = some "42.000000" ∧
    jsonFieldToValue c7root "a" = some "hi" ∧
    jsonFieldToValue c7root "c" = some "true" ∧
    jsonFieldToValue c7root "d" = none ∧
    jsonFieldToValue c7root "e" = some "\x7b\"x\":1\x7d" ∧
    jsonFieldToValue c7root "f" = none := by
  refine ⟨rfl, ?_, rfl, rfl, rfl, rfl, rfl⟩
  exact ((json_extraction_mapping (fun _ => none) wStream "" "S" [] 1 0).2
    c7root "b").2.2.1 42 rfl

end NatsScan
